import Mathlib

/-!
Verification of the custom-claims migration script
(`src/scripts/migrate_claims.py`).

The script performs one pass:
it indexes the `stores` collection by `ownerId`
(`get_all_stores`), then for each document of the `users` collection it
fetches the current custom claims (`get_user_current_claims`), decides one
of four outcomes (`already_has_claims`, `no_store`, `migrated`, `error`),
optionally writes new claims (`set_user_claims`) and revokes tokens
(`revoke_user_tokens`), accumulates statistics and appends one outcome
record per user.

External collaborators (Firestore, Firebase Auth) are modelled by explicit
inputs: the list of store documents, the list of user documents, a map from
uid to the current custom claims, and boolean oracles saying which
collaborator calls raise an exception.
-/

namespace MigrateClaims

/-- Python truthiness of an optional string value, as used by
`if owner_id:` and `if current_claims.get('storeId'):` in the script:
`None` and the empty string are falsy. -/
def truthy : Option String → Bool
  | none => false
  | some s => s ≠ ""

/-- The value stored in the ownership index for one owner:
`\x7b'storeId': doc.id, 'storeName': ...\x7d`. -/
structure StoreInfo where
  storeId : String
  storeName : String
deriving DecidableEq, Repr

/-- A document of the `stores` collection: its document id, the optional
`ownerId` field and the optional `basicInfo.name` field. -/
structure StoreDoc where
  id : String
  ownerId : Option String
  basicInfoName : Option String
deriving DecidableEq, Repr

/-- `get_all_stores`: builds the ownership index. For each store document
with a truthy `ownerId` it inserts `ownerId → \x7bstoreId, storeName\x7d`,
the name defaulting to `'Sin nombre'`. Insertion into a Python dict is
last-write-wins; we model the dict as an association list to which each
insertion is prepended, looked up with `List.lookup` (first match), which
gives the same last-write-wins semantics. -/
def get_all_stores (docs : List StoreDoc) : List (String × StoreInfo) :=
  docs.foldl
    (fun acc d =>
      if truthy d.ownerId then
        (d.ownerId.getD "", ⟨d.id, d.basicInfoName.getD "Sin nombre"⟩) :: acc
      else acc)
    []

/-- The custom-claim set of one user, as far as the script reads or writes
it: the `storeId` and `role` keys. -/
structure ClaimSet where
  storeId : Option String := none
  role : Option String := none
deriving DecidableEq, Repr

/-- A document of the `users` collection: document id (the auth uid) and
the optional `email` field. -/
structure UserDoc where
  id : String
  email : Option String
deriving DecidableEq, Repr

/-- Failure oracles for the three Firebase Auth calls: which uids make
`auth.get_user`, `auth.set_custom_user_claims`, `auth.revoke_refresh_tokens`
raise an exception. -/
structure Env where
  fetchFails : String → Bool
  writeFails : String → Bool
  revokeFails : String → Bool

/-- `get_user_current_claims`: returns `user.custom_claims or \x7b\x7d`, and
returns `\x7b\x7d` when `auth.get_user` raises. `claims uid = none` models
an account whose `custom_claims` is `None`. -/
def get_user_current_claims (env : Env) (claims : String → Option ClaimSet)
    (uid : String) : ClaimSet :=
  if env.fetchFails uid then {} else (claims uid).getD {}

/-- `set_user_claims`: returns `True` on success, `False` when
`auth.set_custom_user_claims` raises. -/
def set_user_claims (env : Env) (uid : String) : Bool :=
  !env.writeFails uid

/-- `revoke_user_tokens`: returns `True` on success, `False` when
`auth.revoke_refresh_tokens` raises. -/
def revoke_user_tokens (env : Env) (uid : String) : Bool :=
  !env.revokeFails uid

/-- Outcome status of one user, the `status` field of a result record. -/
inductive Status where
  | migrated
  | already_has_claims
  | no_store
  | error
deriving DecidableEq, Repr

/-- One record of the `results` list: userId, email, status, storeId, role. -/
structure Outcome where
  userId : String
  email : String
  status : Status
  storeId : Option String
  role : Option String
deriving DecidableEq, Repr

/-- What processing one user produced: the outcome record, whether
`set_user_claims` and `revoke_user_tokens` were called, and the claim set
written on a successful write (`none` when nothing was written). -/
structure StepResult where
  outcome : Outcome
  writeCalled : Bool
  revokeCalled : Bool
  written : Option ClaimSet
deriving DecidableEq, Repr

/-- The body of the per-user loop of `migrate_claims`, minus the statistics
bookkeeping: fetch current claims; if they hold a truthy `storeId`, report
`already_has_claims` echoing the current `storeId`/`role`; else look the
uid up in the ownership index, reporting `no_store` when absent; else write
`\x7bstoreId, role: 'owner'\x7d`, reporting `migrated` on success (calling
`revoke_user_tokens`, whose result only affects logging) and `error` on
failure. -/
def processUser (index : List (String × StoreInfo)) (env : Env)
    (claims : String → Option ClaimSet) (u : UserDoc) : StepResult :=
  let email := u.email.getD "N/A"
  let cur := get_user_current_claims env claims u.id
  if truthy cur.storeId then
    ⟨⟨u.id, email, .already_has_claims, cur.storeId, cur.role⟩,
      false, false, none⟩
  else
    match List.lookup u.id index with
    | none =>
        ⟨⟨u.id, email, .no_store, none, none⟩, false, false, none⟩
    | some si =>
        if set_user_claims env u.id then
          ⟨⟨u.id, email, .migrated, some si.storeId, some "owner"⟩,
            true, true, some ⟨some si.storeId, some "owner"⟩⟩
        else
          ⟨⟨u.id, email, .error, none, none⟩, true, false, none⟩

/-- The `stats` dict of the script. -/
structure Stats where
  total : Nat := 0
  migrated : Nat := 0
  already_has_claims : Nat := 0
  no_store : Nat := 0
  errors : Nat := 0
deriving DecidableEq, Repr

/-- Increment the per-status counter for one outcome status. -/
def bumpStatus (s : Stats) : Status → Stats
  | .migrated => { s with migrated := s.migrated + 1 }
  | .already_has_claims =>
      { s with already_has_claims := s.already_has_claims + 1 }
  | .no_store => { s with no_store := s.no_store + 1 }
  | .error => { s with errors := s.errors + 1 }

/-- Effect of a (possibly absent) successful claim write on the claims
store: `auth.set_custom_user_claims(uid, c)` replaces `uid`'s claim set. -/
def applyWrite (claims : String → Option ClaimSet) (uid : String)
    (w : Option ClaimSet) : String → Option ClaimSet :=
  fun x =>
    if x = uid then
      match w with
      | some c => some c
      | none => claims x
    else claims x

/-- The in-process state of a run: accumulated statistics, the `results`
list, the current state of the claims store, and how many write and
revocation calls were made so far. -/
structure RunState where
  stats : Stats
  results : List Outcome
  claims : String → Option ClaimSet
  writeCalls : Nat
  revokeCalls : Nat

/-- One iteration of the user loop: `stats['total'] += 1`, process the
user, bump the status counter, append the outcome record, and reflect a
successful write in the claims store. -/
def runStep (index : List (String × StoreInfo)) (env : Env)
    (st : RunState) (u : UserDoc) : RunState :=
  let r := processUser index env st.claims u
  { stats := bumpStatus { st.stats with total := st.stats.total + 1 }
      r.outcome.status,
    results := st.results ++ [r.outcome],
    claims := applyWrite st.claims u.id r.written,
    writeCalls := st.writeCalls + (if r.writeCalled then 1 else 0),
    revokeCalls := st.revokeCalls + (if r.revokeCalled then 1 else 0) }

/-- The user loop of `migrate_claims`, starting from a given state. -/
def migrateFrom (index : List (String × StoreInfo)) (env : Env)
    (st : RunState) : List UserDoc → RunState
  | [] => st
  | u :: rest => migrateFrom index env (runStep index env st u) rest

/-- The state at the top of `migrate_claims`: all counters zero, empty
results list, the claims store as given. -/
def initState (claims0 : String → Option ClaimSet) : RunState :=
  ⟨{}, [], claims0, 0, 0⟩

/-- `migrate_claims`: build the ownership index from the `stores`
collection, then run the user loop over the `users` collection. The final
state carries the `stats` and `results` that the script prints and dumps
into the JSON report. -/
def migrate_claims (stores : List StoreDoc) (users : List UserDoc)
    (env : Env) (claims0 : String → Option ClaimSet) : RunState :=
  migrateFrom (get_all_stores stores) env (initState claims0) users

/-- Number of outcome records in a list carrying a given status; used to
recompute the aggregate counts from the `results` list. -/
def countStatus (l : List Outcome) (s : Status) : Nat :=
  l.countP (fun o => o.status = s)

/-- An environment in which no collaborator call fails. -/
def noFailEnv : Env :=
  ⟨fun _ => false, fun _ => false, fun _ => false⟩

/-- A claims store holding no custom claims for any uid. -/
def emptyClaims : String → Option ClaimSet :=
  fun _ => none

/-- An environment in which every claims fetch raises. -/
def fetchFailEnv : Env :=
  ⟨fun _ => true, fun _ => false, fun _ => false⟩

/-- An environment in which every claims write raises. -/
def writeFailEnv : Env :=
  ⟨fun _ => false, fun _ => true, fun _ => false⟩

/-- An environment in which every token revocation raises. -/
def revokeFailEnv : Env :=
  ⟨fun _ => false, fun _ => false, fun _ => true⟩

/-- A claims store in which every uid already carries
`\x7bstoreId: 'S9', role: 'owner'\x7d` (the spec's §8 example user u2). -/
def cexClaims : String → Option ClaimSet :=
  fun _ => some ⟨some "S9", some "owner"⟩

/-- The spec's §8 example user u1 (owns a store, no existing claims). -/
def userU1 : UserDoc := ⟨"u1", some "a@x.com"⟩

/-- The spec's §8 example user u2 (pre-existing storeId claim). -/
def cexUser : UserDoc := ⟨"u2", some "b@x.com"⟩

/-- The spec's §8 example user u3 (no claims, no owned store). -/
def userU3 : UserDoc := ⟨"u3", some "c@x.com"⟩

/-- The spec's §8 example store S1 owned by u1. -/
def storeS1 : StoreDoc := ⟨"S1", some "u1", some "Acme"⟩

/-- A second store also owned by u1, with no `basicInfo.name`. -/
def storeS2 : StoreDoc := ⟨"S2", some "u1", none⟩

/-- The spec's §8 example store S2: no ownerId. -/
def storeS3 : StoreDoc := ⟨"S3", none, some "Nameless"⟩

/-- The ownership index holding only `u1 → \x7bS1, Acme\x7d`. -/
def acmeIndex : List (String × StoreInfo) := [("u1", ⟨"S1", "Acme"⟩)]

/-- A fresh run state over an empty claims store. -/
def initU : RunState := initState emptyClaims

/-- The statistics of a run state agree with a recomputation from its
results list. -/
def statsAccurate (st : RunState) : Prop :=
  st.stats.total = st.results.length ∧
  st.stats.migrated = countStatus st.results .migrated ∧
  st.stats.already_has_claims = countStatus st.results .already_has_claims ∧
  st.stats.no_store = countStatus st.results .no_store ∧
  st.stats.errors = countStatus st.results .error

lemma countStatus_append (l1 l2 : List Outcome) (s : Status) :
    countStatus (l1 ++ l2) s = countStatus l1 s + countStatus l2 s := by
  simp [countStatus, List.countP_append]

lemma countStatus_singleton (o : Outcome) (s : Status) :
    countStatus [o] s = if o.status = s then 1 else 0 := by
  simp [countStatus, List.countP_cons]

lemma statsAccurate_runStep (index : List (String × StoreInfo)) (env : Env)
    (st : RunState) (u : UserDoc) (h : statsAccurate st) :
    statsAccurate (runStep index env st u) := by
  obtain ⟨h0, h1, h2, h3, h4⟩ := h
  unfold statsAccurate runStep
  cases hs : (processUser index env st.claims u).outcome.status <;>
    simp [bumpStatus, hs, countStatus_append, countStatus_singleton,
      h0, h1, h2, h3, h4]

lemma statsAccurate_migrateFrom (index : List (String × StoreInfo))
    (env : Env) (users : List UserDoc) (st : RunState)
    (h : statsAccurate st) : statsAccurate (migrateFrom index env st users) := by
  induction users generalizing st with
  | nil => exact h
  | cons u rest ih => exact ih _ (statsAccurate_runStep index env st u h)

lemma statsAccurate_init (claims0 : String → Option ClaimSet) :
    statsAccurate (initState claims0) := by
  refine ⟨rfl, ?_, ?_, ?_, ?_⟩ <;> simp [initState, countStatus]

lemma runStep_total (index : List (String × StoreInfo)) (env : Env)
    (st : RunState) (u : UserDoc) :
    (runStep index env st u).stats.total = st.stats.total + 1 := by
  unfold runStep
  cases hs : (processUser index env st.claims u).outcome.status <;>
    simp [bumpStatus, hs]

lemma migrateFrom_total (index : List (String × StoreInfo)) (env : Env)
    (users : List UserDoc) (st : RunState) :
    (migrateFrom index env st users).stats.total =
      st.stats.total + users.length := by
  induction users generalizing st with
  | nil => simp [migrateFrom]
  | cons u rest ih =>
      rw [migrateFrom, ih, runStep_total]
      simp [Nat.add_comm, Nat.add_assoc, Nat.add_left_comm]

lemma countStatus_partition (l : List Outcome) :
    countStatus l .migrated + countStatus l .already_has_claims +
      countStatus l .no_store + countStatus l .error = l.length := by
  induction l with
  | nil => simp [countStatus]
  | cons o rest ih =>
      simp only [countStatus, List.countP_cons, List.length_cons] at *
      cases ho : o.status <;> simp [ho] <;> omega

/-- **C2.** Exhaustiveness and exclusivity: every processed user record is
assigned exactly one of the four statuses and contributes exactly one
outcome record (the results list has one entry per user), and at the end
of the run the sum of the four per-status counts equals the total count. -/
theorem C2_exhaustive_exclusive (stores : List StoreDoc)
    (users : List UserDoc) (env : Env)
    (claims0 : String → Option ClaimSet) :
    (migrate_claims stores users env claims0).results.length = users.length ∧
    (migrate_claims stores users env claims0).stats.total = users.length ∧
    (migrate_claims stores users env claims0).stats.migrated +
      (migrate_claims stores users env claims0).stats.already_has_claims +
      (migrate_claims stores users env claims0).stats.no_store +
      (migrate_claims stores users env claims0).stats.errors =
      (migrate_claims stores users env claims0).stats.total := by
  have hacc := statsAccurate_migrateFrom (get_all_stores stores) env users
    (initState claims0) (statsAccurate_init claims0)
  have htot := migrateFrom_total (get_all_stores stores) env users
    (initState claims0)
  obtain ⟨h0, h1, h2, h3, h4⟩ := hacc
  have htot' : (migrate_claims stores users env claims0).stats.total
      = users.length := by
    simpa [migrate_claims, initState] using htot
  refine ⟨h0.symm.trans htot', htot', ?_⟩
  simp only [migrate_claims]
  rw [h1, h2, h3, h4, h0]
  exact countStatus_partition _

/-- **C8.** Report completeness: the persisted report's outcome list has
exactly `total` entries, and each aggregate count in the report equals the
number of entries of the list carrying the corresponding status. -/
theorem C8_report_complete (stores : List StoreDoc) (users : List UserDoc)
    (env : Env) (claims0 : String → Option ClaimSet) :
    (migrate_claims stores users env claims0).results.length =
      (migrate_claims stores users env claims0).stats.total ∧
    (migrate_claims stores users env claims0).stats.migrated =
      countStatus (migrate_claims stores users env claims0).results .migrated ∧
    (migrate_claims stores users env claims0).stats.already_has_claims =
      countStatus (migrate_claims stores users env claims0).results
        .already_has_claims ∧
    (migrate_claims stores users env claims0).stats.no_store =
      countStatus (migrate_claims stores users env claims0).results .no_store ∧
    (migrate_claims stores users env claims0).stats.errors =
      countStatus (migrate_claims stores users env claims0).results .error := by
  have hacc := statsAccurate_migrateFrom (get_all_stores stores) env users
    (initState claims0) (statsAccurate_init claims0)
  obtain ⟨h0, h1, h2, h3, h4⟩ := hacc
  exact ⟨h0.symm, h1, h2, h3, h4⟩

/-- **C4.** Short-circuit: a user whose fetched current claim set has a
truthy `storeId` yields `already_has_claims`; no claim write and no
session invalidation is made; the existing `storeId` and `role` from the
fetched claim set are echoed into the outcome record. -/
theorem C4_short_circuit (index : List (String × StoreInfo)) (env : Env)
    (claims : String → Option ClaimSet) (u : UserDoc)
    (h : truthy (get_user_current_claims env claims u.id).storeId = true) :
    (processUser index env claims u).outcome.status = .already_has_claims ∧
    (processUser index env claims u).writeCalled = false ∧
    (processUser index env claims u).revokeCalled = false ∧
    (processUser index env claims u).written = none ∧
    (processUser index env claims u).outcome.storeId =
      (get_user_current_claims env claims u.id).storeId ∧
    (processUser index env claims u).outcome.role =
      (get_user_current_claims env claims u.id).role := by
  simp [processUser, h]

/-- Witness for C4 at the spec's §8 example user u2. -/
theorem C4_short_circuit_witness :
    truthy (get_user_current_claims noFailEnv cexClaims cexUser.id).storeId
      = true ∧
    ((processUser [] noFailEnv cexClaims cexUser).outcome.status
        = .already_has_claims ∧
      (processUser [] noFailEnv cexClaims cexUser).writeCalled = false ∧
      (processUser [] noFailEnv cexClaims cexUser).revokeCalled = false ∧
      (processUser [] noFailEnv cexClaims cexUser).written = none ∧
      (processUser [] noFailEnv cexClaims cexUser).outcome.storeId =
        (get_user_current_claims noFailEnv cexClaims cexUser.id).storeId ∧
      (processUser [] noFailEnv cexClaims cexUser).outcome.role =
        (get_user_current_claims noFailEnv cexClaims cexUser.id).role) :=
  ⟨by decide, C4_short_circuit [] noFailEnv cexClaims cexUser (by decide)⟩

/-- **C3, counterexample.** The claim says a user absent from the
ownership index always yields `no_store` regardless of the claim-store
state; but a user absent from the index whose current claims hold a
truthy `storeId` yields `already_has_claims` (the claims check runs
first). -/
theorem C3_counterexample :
    List.lookup cexUser.id ([] : List (String × StoreInfo)) = none ∧
    truthy ((cexClaims cexUser.id).getD {}).storeId = true ∧
    (processUser [] noFailEnv cexClaims cexUser).outcome.status ≠ .no_store ∧
    (processUser [] noFailEnv cexClaims cexUser).outcome.status
      = .already_has_claims := by
  decide

/-- **C3, amended.** A user absent from the ownership index whose fetched
current claim set has no truthy `storeId` yields `no_store`, with no
write and no invalidation. -/
theorem C3_no_store (index : List (String × StoreInfo)) (env : Env)
    (claims : String → Option ClaimSet) (u : UserDoc)
    (h1 : List.lookup u.id index = none)
    (h2 : truthy (get_user_current_claims env claims u.id).storeId = false) :
    (processUser index env claims u).outcome.status = .no_store ∧
    (processUser index env claims u).writeCalled = false ∧
    (processUser index env claims u).revokeCalled = false := by
  simp [processUser, h1, h2]

/-- Witness for the amended C3 at the spec's §8 example user u3. -/
theorem C3_no_store_witness :
    List.lookup userU3.id ([] : List (String × StoreInfo)) = none ∧
    truthy (get_user_current_claims noFailEnv emptyClaims userU3.id).storeId
      = false ∧
    ((processUser [] noFailEnv emptyClaims userU3).outcome.status
        = .no_store ∧
      (processUser [] noFailEnv emptyClaims userU3).writeCalled = false ∧
      (processUser [] noFailEnv emptyClaims userU3).revokeCalled = false) :=
  ⟨by decide, by decide,
    C3_no_store [] noFailEnv emptyClaims userU3 (by decide) (by decide)⟩

/-- **C5.** Write failure: a user who passes the claims check and is in
the ownership index, but whose claim write fails, gets outcome `error`;
no invalidation is attempted; the `errors` count increments by exactly
one; and the run continues with the remaining users. -/
theorem C5_write_failure (index : List (String × StoreInfo)) (env : Env)
    (st : RunState) (u : UserDoc) (si : StoreInfo)
    (h1 : truthy (get_user_current_claims env st.claims u.id).storeId = false)
    (h2 : List.lookup u.id index = some si)
    (h3 : env.writeFails u.id = true) :
    (processUser index env st.claims u).outcome.status = .error ∧
    (processUser index env st.claims u).revokeCalled = false ∧
    (processUser index env st.claims u).written = none ∧
    (runStep index env st u).stats.errors = st.stats.errors + 1 ∧
    ∀ rest : List UserDoc,
      migrateFrom index env st (u :: rest) =
        migrateFrom index env (runStep index env st u) rest := by
  have hp : processUser index env st.claims u =
      ⟨⟨u.id, u.email.getD "N/A", .error, none, none⟩, true, false, none⟩ := by
    simp [processUser, set_user_claims, h1, h2, h3]
  refine ⟨by rw [hp], by rw [hp], by rw [hp], ?_, fun rest => rfl⟩
  simp [runStep, hp, bumpStatus]

/-- Witness for C5: user u1 under an environment whose writes all fail. -/
theorem C5_write_failure_witness :
    truthy (get_user_current_claims writeFailEnv initU.claims userU1.id).storeId
      = false ∧
    List.lookup userU1.id acmeIndex = some ⟨"S1", "Acme"⟩ ∧
    writeFailEnv.writeFails userU1.id = true ∧
    ((processUser acmeIndex writeFailEnv initU.claims userU1).outcome.status
        = .error ∧
      (processUser acmeIndex writeFailEnv initU.claims userU1).revokeCalled
        = false ∧
      (runStep acmeIndex writeFailEnv initU userU1).stats.errors
        = initU.stats.errors + 1 ∧
      migrateFrom acmeIndex writeFailEnv initU [userU1] =
        migrateFrom acmeIndex writeFailEnv
          (runStep acmeIndex writeFailEnv initU userU1) []) := by
  have h := C5_write_failure acmeIndex writeFailEnv initU userU1 ⟨"S1", "Acme"⟩
    (by decide) (by decide) rfl
  exact ⟨by decide, by decide, rfl, h.1, h.2.1, h.2.2.2.1, h.2.2.2.2 []⟩

/-- **C6.** Given the user passed the claims check and has a store in the
index, the outcome is `migrated` iff the claim write succeeded; and any
two environments agreeing on fetch and write failures (so differing at
most in revocation failures) produce the identical step result, hence
identical status and statistics. -/
theorem C6_migrated_iff_write_success (index : List (String × StoreInfo))
    (env : Env) (claims : String → Option ClaimSet) (u : UserDoc)
    (si : StoreInfo)
    (h1 : truthy (get_user_current_claims env claims u.id).storeId = false)
    (h2 : List.lookup u.id index = some si) :
    ((processUser index env claims u).outcome.status = .migrated ↔
      env.writeFails u.id = false) ∧
    ∀ env' : Env, env'.fetchFails = env.fetchFails →
      env'.writeFails = env.writeFails →
      processUser index env' claims u = processUser index env claims u := by
  constructor
  · cases hw : env.writeFails u.id <;>
      simp [processUser, set_user_claims, h1, h2, hw]
  · intro env' hf hw
    simp [processUser, get_user_current_claims, set_user_claims, hf, hw]

/-- Witness for C6: user u1 with store S1; the revocation-failing
environment produces the same step result as the failure-free one. -/
theorem C6_migrated_iff_write_success_witness :
    truthy (get_user_current_claims noFailEnv emptyClaims userU1.id).storeId
      = false ∧
    List.lookup userU1.id acmeIndex = some ⟨"S1", "Acme"⟩ ∧
    ((processUser acmeIndex noFailEnv emptyClaims userU1).outcome.status
        = .migrated ↔ noFailEnv.writeFails userU1.id = false) ∧
    processUser acmeIndex revokeFailEnv emptyClaims userU1 =
      processUser acmeIndex noFailEnv emptyClaims userU1 := by
  have h := C6_migrated_iff_write_success acmeIndex noFailEnv emptyClaims
    userU1 ⟨"S1", "Acme"⟩ (by decide) (by decide)
  exact ⟨by decide, by decide, h.1, h.2 revokeFailEnv rfl rfl⟩

/-- **C7.** Fetch failure degrades to an empty claim set: when the claims
fetch for a user raises, the current claim set is `\x7b\x7d`, the step
result does not depend on the claims store at all (the user proceeds to
the ownership-index lookup), and the fetch failure alone never yields
status `error` — `error` requires a write failure. -/
theorem C7_fetch_failure (index : List (String × StoreInfo)) (env : Env)
    (claims : String → Option ClaimSet) (u : UserDoc)
    (h : env.fetchFails u.id = true) :
    get_user_current_claims env claims u.id = {} ∧
    (∀ claims' : String → Option ClaimSet,
      processUser index env claims' u = processUser index env claims u) ∧
    ((processUser index env claims u).outcome.status = .error →
      env.writeFails u.id = true) := by
  refine ⟨by simp [get_user_current_claims, h], ?_, ?_⟩
  · intro claims'
    simp [processUser, get_user_current_claims, h]
  · intro he
    cases hw : env.writeFails u.id
    · cases hl : List.lookup u.id index <;>
        simp [processUser, get_user_current_claims, set_user_claims, truthy,
          h, hl, hw] at he
    · rfl

/-- Witness for C7: user u3 under an environment whose fetches all fail;
the claims store with pre-existing claims gives the same step result as
the empty one. -/
theorem C7_fetch_failure_witness :
    fetchFailEnv.fetchFails userU3.id = true ∧
    get_user_current_claims fetchFailEnv cexClaims userU3.id = {} ∧
    processUser [] fetchFailEnv emptyClaims userU3 =
      processUser [] fetchFailEnv cexClaims userU3 := by
  have h := C7_fetch_failure [] fetchFailEnv cexClaims userU3 rfl
  exact ⟨rfl, h.1, h.2.1 emptyClaims⟩

lemma get_all_stores_append_one (docs : List StoreDoc) (d : StoreDoc) :
    get_all_stores (docs ++ [d]) =
      if truthy d.ownerId then
        (d.ownerId.getD "", ⟨d.id, d.basicInfoName.getD "Sin nombre"⟩) ::
          get_all_stores docs
      else get_all_stores docs := by
  simp [get_all_stores, List.foldl_append]

/-- **C9.** Ownership-index construction: a store appended to the scan
with `ownerId = o ≠ ""` makes the index map `o` to that store's id and
name (name defaulting to `'Sin nombre'` when absent) — even when earlier
stores also carried owner `o`, i.e. last-write-wins; and a store with a
missing or empty `ownerId` leaves the index unchanged (silently skipped). -/
theorem C9_index_construction :
    (∀ (docs : List StoreDoc) (d : StoreDoc) (o : String),
      d.ownerId = some o → o ≠ "" →
      List.lookup o (get_all_stores (docs ++ [d])) =
        some ⟨d.id, d.basicInfoName.getD "Sin nombre"⟩) ∧
    (∀ (docs : List StoreDoc) (d : StoreDoc),
      truthy d.ownerId = false →
      get_all_stores (docs ++ [d]) = get_all_stores docs) := by
  constructor
  · intro docs d o ho hne
    have ht : truthy d.ownerId = true := by simp [truthy, ho, hne]
    rw [get_all_stores_append_one, ht]
    simp [ho, List.lookup]
  · intro docs d h
    rw [get_all_stores_append_one, h]
    simp

/-- Witness for C9: store S2 (owner u1, no name) appended after store S1
(also owner u1) wins the index slot for u1 with the placeholder name;
store S3 (no ownerId) is skipped. -/
theorem C9_index_construction_witness :
    (storeS2.ownerId = some "u1" ∧ ("u1" : String) ≠ "" ∧
      List.lookup "u1" (get_all_stores ([storeS1] ++ [storeS2])) =
        some ⟨"S2", "Sin nombre"⟩) ∧
    (truthy storeS3.ownerId = false ∧
      get_all_stores ([storeS1] ++ [storeS3]) = get_all_stores [storeS1]) := by
  refine ⟨⟨rfl, by decide, ?_⟩, rfl, ?_⟩
  · exact C9_index_construction.1 [storeS1] storeS2 "u1" rfl (by decide)
  · exact C9_index_construction.2 [storeS1] storeS3 rfl

lemma applyWrite_none (claims : String → Option ClaimSet) (uid : String) :
    applyWrite claims uid none = claims := by
  funext x
  simp [applyWrite]

lemma migrated_stable (index : List (String × StoreInfo)) (env : Env)
    (users : List UserDoc) (st : RunState)
    (h : ∀ u ∈ users, env.fetchFails u.id = false ∧
      truthy ((st.claims u.id).getD {}).storeId = true) :
    (migrateFrom index env st users).stats.migrated = st.stats.migrated := by
  induction users generalizing st with
  | nil => rfl
  | cons u rest ih =>
      obtain ⟨hf, hc⟩ := h u (List.mem_cons_self u rest)
      have hcur : truthy (get_user_current_claims env st.claims u.id).storeId
          = true := by
        simpa [get_user_current_claims, hf] using hc
      have hst : (processUser index env st.claims u).outcome.status
            = .already_has_claims ∧
          (processUser index env st.claims u).written = none := by
        simp [processUser, hcur]
      have hclaims : (runStep index env st u).claims = st.claims := by
        simp [runStep, hst.2, applyWrite_none]
      rw [migrateFrom, ih]
      · simp [runStep, bumpStatus, hst.1]
      · intro v hv
        rw [hclaims]
        exact h v (List.mem_cons_of_mem u hv)

/-- **C1.** Idempotence: a user present in the ownership index (with a
non-empty store id, as Firestore document ids are) with no pre-existing
truthy `storeId` claim, whose fetch and write calls succeed, gets
`migrated` on a first resolve and `already_has_claims` on a second
resolve run against the claims store left by the first one — never
`migrated` twice; and a whole run over users that all already carry a
truthy `storeId` claim (and whose fetches succeed) produces zero
`migrated` outcomes. -/
theorem C1_idempotent :
    (∀ (index : List (String × StoreInfo)) (env : Env)
        (claims : String → Option ClaimSet) (u : UserDoc) (si : StoreInfo),
      List.lookup u.id index = some si → si.storeId ≠ "" →
      truthy ((claims u.id).getD {}).storeId = false →
      env.fetchFails u.id = false → env.writeFails u.id = false →
      (processUser index env claims u).outcome.status = .migrated ∧
      (processUser index env
          (applyWrite claims u.id (processUser index env claims u).written)
          u).outcome.status = .already_has_claims) ∧
    (∀ (stores : List StoreDoc) (users : List UserDoc) (env : Env)
        (claims0 : String → Option ClaimSet),
      (∀ u ∈ users, env.fetchFails u.id = false ∧
        truthy ((claims0 u.id).getD {}).storeId = true) →
      (migrate_claims stores users env claims0).stats.migrated = 0) := by
  constructor
  · intro index env claims u si hl hs hc hf hw
    have hcur : truthy (get_user_current_claims env claims u.id).storeId
        = false := by
      simpa [get_user_current_claims, hf] using hc
    have h1 : processUser index env claims u =
        ⟨⟨u.id, u.email.getD "N/A", .migrated, some si.storeId, some "owner"⟩,
          true, true, some ⟨some si.storeId, some "owner"⟩⟩ := by
      simp [processUser, set_user_claims, hcur, hl, hw]
    refine ⟨by rw [h1], ?_⟩
    rw [h1]
    simp [processUser, get_user_current_claims, applyWrite, hf, truthy, hs]
  · intro stores users env claims0 h
    have h2 := migrated_stable (get_all_stores stores) env users
      (initState claims0) h
    simpa [migrate_claims, initState] using h2

/-- Witness for C1: user u1 with store S1 migrates once then
short-circuits; a run over the already-claimed user u2 migrates nobody. -/
theorem C1_idempotent_witness :
    (List.lookup userU1.id acmeIndex = some ⟨"S1", "Acme"⟩ ∧
      ("S1" : String) ≠ "" ∧
      (processUser acmeIndex noFailEnv emptyClaims userU1).outcome.status
        = .migrated ∧
      (processUser acmeIndex noFailEnv
          (applyWrite emptyClaims userU1.id
            (processUser acmeIndex noFailEnv emptyClaims userU1).written)
          userU1).outcome.status = .already_has_claims) ∧
    (migrate_claims [] [cexUser] noFailEnv cexClaims).stats.migrated = 0 := by
  have h1 := C1_idempotent.1 acmeIndex noFailEnv emptyClaims userU1
    ⟨"S1", "Acme"⟩ (by decide) (by decide) (by decide) rfl rfl
  have h2 := C1_idempotent.2 [] [cexUser] noFailEnv cexClaims
    (by intro u hu; simp at hu; subst hu; exact ⟨rfl, by decide⟩)
  exact ⟨⟨by decide, by decide, h1.1, h1.2⟩, h2⟩

lemma get_all_stores_nil (stores : List StoreDoc)
    (h : ∀ d ∈ stores, truthy d.ownerId = false) :
    get_all_stores stores = [] := by
  induction stores with
  | nil => rfl
  | cons d rest ih =>
      have hd := h d (List.mem_cons_self d rest)
      have hstep : get_all_stores (d :: rest) = get_all_stores rest := by
        simp [get_all_stores, hd]
      rw [hstep]
      exact ih (fun x hx => h x (List.mem_cons_of_mem d hx))

lemma migrateFrom_nil_index (env : Env) (users : List UserDoc)
    (st : RunState) :
    (migrateFrom [] env st users).writeCalls = st.writeCalls ∧
    (migrateFrom [] env st users).revokeCalls = st.revokeCalls ∧
    (migrateFrom [] env st users).stats.migrated = st.stats.migrated ∧
    (migrateFrom [] env st users).stats.errors = st.stats.errors ∧
    ∀ o ∈ (migrateFrom [] env st users).results,
      o ∈ st.results ∨ o.status = .already_has_claims ∨
        o.status = .no_store := by
  induction users generalizing st with
  | nil => exact ⟨rfl, rfl, rfl, rfl, fun o ho => Or.inl ho⟩
  | cons u rest ih =>
      have hp : (processUser [] env st.claims u).writeCalled = false ∧
          (processUser [] env st.claims u).revokeCalled = false ∧
          ((processUser [] env st.claims u).outcome.status
              = .already_has_claims ∨
            (processUser [] env st.claims u).outcome.status = .no_store) := by
        by_cases hc :
          truthy (get_user_current_claims env st.claims u.id).storeId = true
        · simp [processUser, hc]
        · simp at hc
          simp [processUser, hc, List.lookup]
      obtain ⟨hw, hr, hs⟩ := hp
      rw [migrateFrom]
      obtain ⟨i1, i2, i3, i4, i5⟩ := ih (runStep [] env st u)
      refine ⟨?_, ?_, ?_, ?_, ?_⟩
      · rw [i1]; simp [runStep, hw]
      · rw [i2]; simp [runStep, hr]
      · rw [i3]; rcases hs with h' | h' <;> simp [runStep, bumpStatus, h']
      · rw [i4]; rcases hs with h' | h' <;> simp [runStep, bumpStatus, h']
      · intro o ho
        rcases i5 o ho with hmem | hst
        · have hmem' : o ∈ st.results ∨
              o = (processUser [] env st.claims u).outcome := by
            simpa [runStep] using hmem
          rcases hmem' with h' | h'
          · exact Or.inl h'
          · rcases hs with h2 | h2
            · exact Or.inr (Or.inl (by rw [h']; exact h2))
            · exact Or.inr (Or.inr (by rw [h']; exact h2))
        · exact Or.inr hst

/-- **C10.** No mutation when the ownership index is empty: when no store
record has a truthy `ownerId`, a full run makes zero claim writes and
zero session invalidations, every outcome is `already_has_claims` or
`no_store`, and the `migrated` and `errors` counts are both zero. -/
theorem C10_empty_index_frame (stores : List StoreDoc)
    (users : List UserDoc) (env : Env)
    (claims0 : String → Option ClaimSet)
    (h : ∀ d ∈ stores, truthy d.ownerId = false) :
    (migrate_claims stores users env claims0).writeCalls = 0 ∧
    (migrate_claims stores users env claims0).revokeCalls = 0 ∧
    (migrate_claims stores users env claims0).stats.migrated = 0 ∧
    (migrate_claims stores users env claims0).stats.errors = 0 ∧
    ∀ o ∈ (migrate_claims stores users env claims0).results,
      o.status = .already_has_claims ∨ o.status = .no_store := by
  have hidx := get_all_stores_nil stores h
  obtain ⟨i1, i2, i3, i4, i5⟩ :=
    migrateFrom_nil_index env users (initState claims0)
  rw [migrate_claims, hidx]
  refine ⟨i1, i2, i3, i4, ?_⟩
  intro o ho
  rcases i5 o ho with hmem | hst
  · simp [initState] at hmem
  · exact hst

/-- Witness for C10: a run whose only store has no ownerId, over users u2
(already claimed) and u3 (no claims), mutates nothing. -/
theorem C10_empty_index_frame_witness :
    truthy storeS3.ownerId = false ∧
    (migrate_claims [storeS3] [cexUser, userU3] noFailEnv cexClaims).writeCalls
      = 0 ∧
    (migrate_claims [storeS3] [cexUser, userU3] noFailEnv
        cexClaims).revokeCalls = 0 ∧
    (migrate_claims [storeS3] [cexUser, userU3] noFailEnv
        cexClaims).stats.migrated = 0 ∧
    (migrate_claims [storeS3] [cexUser, userU3] noFailEnv
        cexClaims).stats.errors = 0 := by
  have h := C10_empty_index_frame [storeS3] [cexUser, userU3] noFailEnv
    cexClaims (by decide)
  exact ⟨by decide, h.1, h.2.1, h.2.2.1, h.2.2.2.1⟩

end MigrateClaims
